import Mathlib

/-!
# Verification of the buildbot try-client protocol and runner scripts

Shallow embedding of:
* the build-trial request encoder (`createJobfile` and the netstring helper
  `makeNetstring` from `test_clients_tryclient.py`),
* the options-file machinery (`OptionsWithOptionsFile.__init__` and
  `loadOptionsFile` from `scripts/runner.py`),
* the try-server spool delivery (`doTryServer`), and
* the stop-with-wait polling loop (`stop`).

Python strings (byte strings in Python 2) are modelled as Lean `String`s where
each `Char` stands for one byte; all payloads in the repository's tests are
ASCII, so `String.length` coincides with the byte length.
-/

namespace Buildbot

/-! ## Decimal rendering, as produced by Python `"%d" %` / `str()` -/

/-- The character for a single decimal digit `d < 10`. -/
def digitChar (d : Nat) : Char := Char.ofNat (48 + d)

/-- Big-endian digit expansion of a natural number; `0` renders as `[0]`,
matching Python's `"%d" % 0 == "0"`. -/
def decDigits (n : Nat) : List Nat :=
  if n = 0 then [0] else (Nat.digits 10 n).reverse

/-- Fuel-driven core of decimal rendering (structural recursion so that it
reduces in the kernel); the digits of `n % 10` are accumulated from the right,
exactly like the usual division-based decimal printer. -/
def toDecimalAux : Nat → Nat → List Char → List Char
  | 0, _, acc => acc
  | fuel + 1, n, acc =>
    let acc' := digitChar (n % 10) :: acc
    if n < 10 then acc' else toDecimalAux fuel (n / 10) acc'

/-- Decimal string of a natural number: the embedding of Python's `"%d"`
formatting and `str()` on a non-negative integer. -/
def decimalString (n : Nat) : String := String.mk (toDecimalAux (n + 1) n [])

theorem decDigits_of_lt (n : Nat) (h0 : n ≠ 0) (h : n < 10) : decDigits n = [n] := by
  unfold decDigits
  rw [if_neg h0,
    Nat.digits_def' (by norm_num : (1 : ℕ) < 10) (Nat.pos_of_ne_zero h0),
    Nat.div_eq_of_lt h, Nat.mod_eq_of_lt h]
  simp

theorem decDigits_of_ge (n : Nat) (h : 10 ≤ n) :
    decDigits n = decDigits (n / 10) ++ [n % 10] := by
  have hn : n ≠ 0 := by omega
  have hdiv : n / 10 ≠ 0 := by
    have h1 : 10 / 10 ≤ n / 10 := Nat.div_le_div_right h
    omega
  unfold decDigits
  rw [if_neg hn, if_neg hdiv,
    Nat.digits_def' (by norm_num : (1 : ℕ) < 10) (Nat.pos_of_ne_zero hn)]
  simp

theorem toDecimalAux_eq (fuel : Nat) :
    ∀ n acc, n < fuel → toDecimalAux fuel n acc = (decDigits n).map digitChar ++ acc := by
  induction fuel with
  | zero => intro n acc h; omega
  | succ f ih =>
    intro n acc h
    by_cases h10 : n < 10
    · rcases Nat.eq_zero_or_pos n with h0 | hpos
      · subst h0
        simp [toDecimalAux, decDigits]
      · rw [decDigits_of_lt n (by omega) h10]
        simp [toDecimalAux, if_pos h10, Nat.mod_eq_of_lt h10]
    · have hdivlt : n / 10 < f := by
        have h1 : n / 10 < n := Nat.div_lt_self (by omega) (by omega)
        have h2 : n ≤ f := Nat.lt_succ_iff.mp h
        omega
      simp only [toDecimalAux, if_neg h10]
      rw [ih (n / 10) _ hdivlt, decDigits_of_ge n (by omega)]
      simp

theorem decimalString_data (n : Nat) :
    (decimalString n).data = (decDigits n).map digitChar := by
  simp [decimalString, toDecimalAux_eq (n + 1) n [] (Nat.lt_succ_self n)]

theorem decDigits_lt (n : Nat) : ∀ d ∈ decDigits n, d < 10 := by
  intro d hd
  unfold decDigits at hd
  split at hd
  · simp at hd; omega
  · exact Nat.digits_lt_base (by omega) (List.mem_reverse.mp hd)

theorem ofDigits_decDigits (n : Nat) :
    Nat.ofDigits 10 (decDigits n).reverse = n := by
  unfold decDigits
  split
  · simp_all [Nat.ofDigits]
  · rw [List.reverse_reverse, Nat.ofDigits_digits]

/-! ## Netstrings

`makeNetstring` embeds the helper of the same name in
`test_clients_tryclient.py`, line 26-27:
`return ''.join(['%d:%s,' % (len(s), s) for s in strings])`, specialised to a
single field; a message is the concatenation of the per-field netstrings. -/

/-- One length-prefixed field: decimal byte length, `:`, the raw bytes, `,`. -/
def makeNetstring (s : String) : String :=
  decimalString s.length ++ ":" ++ s ++ ","

/-- Concatenation of the netstrings of all fields, with no delimiter in
between — the `''.join(...)` of the source. -/
def encodeFields (fields : List String) : String :=
  (fields.map makeNetstring).foldr (· ++ ·) ""

/-- Digit-by-digit decimal accumulator: consumes leading digit characters and
stops at the first non-digit, returning the accumulated value and the rest. -/
def parseLenAux : List Char → Nat → Nat × List Char
  | [], acc => (acc, [])
  | c :: cs, acc =>
    if c.isDigit then parseLenAux cs (10 * acc + (c.toNat - 48)) else (acc, c :: cs)

/-- Parse one netstring from the front of a character stream: decimal length,
`:`, exactly that many characters, `,`.  Returns the field and the rest. -/
def parseNetstring (l : List Char) : Option (List Char × List Char) :=
  match parseLenAux l 0 with
  | (n, rest) =>
    match rest with
    | ':' :: r2 =>
      let body := r2.take n
      if body.length = n then
        match r2.drop n with
        | ',' :: r4 => some (body, r4)
        | _ => none
      else none
    | _ => none

theorem digitChar_spec : ∀ d, d < 10 →
    (digitChar d).isDigit = true ∧ (digitChar d).toNat - 48 = d := by decide

theorem parseLenAux_digits (ds : List Nat) (hds : ∀ d ∈ ds, d < 10) :
    ∀ rest acc, parseLenAux (ds.map digitChar ++ rest) acc =
      parseLenAux rest (acc * 10 ^ ds.length + Nat.ofDigits 10 ds.reverse) := by
  induction ds with
  | nil => intro rest acc; simp [Nat.ofDigits]
  | cons b tl ih =>
    intro rest acc
    have hb : b < 10 := hds b (List.mem_cons_self b tl)
    obtain ⟨hdig, hval⟩ := digitChar_spec b hb
    simp only [List.map_cons, List.cons_append, parseLenAux, hdig, if_pos, hval,
      List.append_eq]
    rw [ih (fun d hd => hds d (List.mem_cons_of_mem b hd)) rest]
    congr 1
    rw [List.reverse_cons, Nat.ofDigits_append]
    simp [Nat.ofDigits]
    ring

theorem parseLenAux_decimal (n : Nat) (c : Char) (hc : c.isDigit = false)
    (rest : List Char) :
    parseLenAux ((decimalString n).data ++ c :: rest) 0 = (n, c :: rest) := by
  rw [decimalString_data, parseLenAux_digits (decDigits n) (decDigits_lt n)]
  rw [ofDigits_decDigits]
  simp [parseLenAux, hc]

/-- Self-delimitation: parsing the netstring of `s` followed by any suffix
recovers exactly `s` and the suffix, whatever characters `s` contains. -/
theorem parseNetstring_makeNetstring (s : String) (r : List Char) :
    parseNetstring ((makeNetstring s).data ++ r) = some (s.data, r) := by
  have hdata : (makeNetstring s).data ++ r =
      (decimalString s.length).data ++ ':' :: (s.data ++ ',' :: r) := by
    simp [makeNetstring, String.data_append]
  rw [hdata]
  unfold parseNetstring
  rw [parseLenAux_decimal s.length ':' (by decide) (s.data ++ ',' :: r)]
  have hlen : s.length = s.data.length := rfl
  simp only [hlen, List.take_left, List.drop_left]
  simp

/-! ## Build-trial requests and the jobfile encoder

The encoder `buildbot.clients.tryclient.createJobfile` itself is not among the
source files; it is modelled from the spec (section 4.2) and validated below
against the five concrete expectations of
`test_clients_tryclient.py.createJobfile`, which is among the source files. -/

/-- A build-trial request (spec section 3).  `who` and `comment` are optional
strings; the empty string stands for an absent (`None`) value, matching the
truthiness test the protocol applies.  `properties` is a finite mapping given
as an association list. -/
structure BuildTrialRequest where
  bsid : String
  branch : String
  baserev : String
  patchlevel : Nat
  diff : String
  repository : String
  project : String
  who : String
  comment : String
  builderNames : List String
  properties : List (String × String)
deriving DecidableEq

/-- Modelled from the spec: version selection of `createJobfile`
(`buildbot/clients/tryclient.py`, absent from the sources): the
lowest-numbered protocol version whose fixed field list can express all
populated fields — `properties` forces 5, else a `comment` forces 4, else a
`who` forces 3, else 2. -/
def chooseVersion (req : BuildTrialRequest) : Nat :=
  if req.properties ≠ [] then 5
  else if req.comment ≠ "" then 4
  else if req.who ≠ "" then 3
  else 2

/-- Modelled from the spec: the single structured-data document wrapping the
entire logical request in a version-5 message.  The real encoder emits JSON
through an external library (`buildbot.util.json`); no claim depends on the
document's concrete text, only on it being one length-prefixed field, so it is
modelled as an injective structured serialization of every request component. -/
def jsonPayload (req : BuildTrialRequest) : String :=
  encodeFields
    ([req.bsid, req.branch, req.baserev, decimalString req.patchlevel,
      req.diff, req.repository, req.project, req.who, req.comment,
      decimalString req.builderNames.length] ++
     req.builderNames ++
     (req.properties.map (fun kv => [kv.1, kv.2])).foldr (· ++ ·) [])

/-- The fields of the wire message, in order, for the version selected by
`chooseVersion` (spec section 4.2): the version tag is its own first field;
versions 2-4 lay out the fixed fields, then `who` (from 3 on), then `comment`
(from 4 on), then the builder names; version 5 has the single structured
field. -/
def jobFields (req : BuildTrialRequest) : List String :=
  let v := chooseVersion req
  if v = 5 then [decimalString 5, jsonPayload req]
  else
    [decimalString v, req.bsid, req.branch, req.baserev,
     decimalString req.patchlevel, req.diff, req.repository, req.project] ++
    (if 3 ≤ v then [req.who] else []) ++
    (if 4 ≤ v then [req.comment] else []) ++
    req.builderNames

/-- Modelled from the spec: `createJobfile` — pick the version, then append
the netstring of each field of that version in order (the cascade of
`job += ns(...)` statements described by spec section 4.2). -/
def createJobfile (req : BuildTrialRequest) : String :=
  let v := chooseVersion req
  if v = 5 then
    makeNetstring (decimalString 5) ++ makeNetstring (jsonPayload req)
  else
    makeNetstring (decimalString v) ++ makeNetstring req.bsid ++
    makeNetstring req.branch ++ makeNetstring req.baserev ++
    makeNetstring (decimalString req.patchlevel) ++ makeNetstring req.diff ++
    makeNetstring req.repository ++ makeNetstring req.project ++
    (if 3 ≤ v then makeNetstring req.who else "") ++
    (if 4 ≤ v then makeNetstring req.comment else "") ++
    encodeFields req.builderNames

/-! ### Validation against the unit tests in the sources

`test_createJobfile_v2_one_builder` .. `test_createJobfile_v4` pin the exact
wire bytes; the modelled encoder reproduces them. -/

/-- The request shared by all five unit tests (version-2 shape). -/
def testRequestV2 : BuildTrialRequest :=
  ⟨"123-456", "branch", "baserev", 0, "diff...", "repo", "proj",
   "", "", ["runtests"], []⟩

example : createJobfile testRequestV2 =
    "1:2,7:123-456,6:branch,7:baserev,1:0,7:diff...,4:repo,4:proj,8:runtests," := by
  decide

example : createJobfile { testRequestV2 with builderNames := ["runtests", "moretests"] } =
    "1:2,7:123-456,6:branch,7:baserev,1:0,7:diff...,4:repo,4:proj,8:runtests,9:moretests," := by
  decide

example : createJobfile { testRequestV2 with who := "someuser" } =
    "1:3,7:123-456,6:branch,7:baserev,1:0,7:diff...,4:repo,4:proj,8:someuser,8:runtests," := by
  decide

example : createJobfile { testRequestV2 with who := "someuser", comment := "insightful comment" } =
    "1:4,7:123-456,6:branch,7:baserev,1:0,7:diff...,4:repo,4:proj,8:someuser,18:insightful comment,8:runtests," := by
  decide

/-- The jobfile is exactly the delimiter-free concatenation of the netstrings
of its fields, for every version. -/
theorem createJobfile_eq_encodeFields (req : BuildTrialRequest) :
    createJobfile req = encodeFields (jobFields req) := by
  by_cases hp : req.properties = []
  · by_cases hc : req.comment = ""
    · by_cases hw : req.who = ""
      · simp [createJobfile, jobFields, chooseVersion, hp, hc, hw, encodeFields,
          String.append_assoc, String.empty_append]
      · simp [createJobfile, jobFields, chooseVersion, hp, hc, hw, encodeFields,
          String.append_assoc, String.empty_append]
    · simp [createJobfile, jobFields, chooseVersion, hp, hc, encodeFields,
        String.append_assoc, String.empty_append]
  · simp [createJobfile, jobFields, chooseVersion, hp, encodeFields,
      String.append_assoc, String.append_empty]

theorem decimalString_two : decimalString 2 = "2" := rfl

theorem decimalString_three : decimalString 3 = "3" := rfl

theorem decimalString_four : decimalString 4 = "4" := rfl

theorem decimalString_five : decimalString 5 = "5" := rfl

/-- C1: the protocol version is selected purely from which fields are
populated, lowest expressive version first: `"2"` when `who`, `comment` and
`properties` are all empty, `"3"` when only `who` is populated, `"4"` when
`who` and `comment` are populated and `properties` is empty, and `"5"`
whenever `properties` is non-empty, regardless of the other fields. -/
theorem claim1_version_selection (req : BuildTrialRequest) :
    (req.who = "" ∧ req.comment = "" ∧ req.properties = [] →
      chooseVersion req = 2 ∧ (jobFields req).head? = some "2") ∧
    (req.who ≠ "" ∧ req.comment = "" ∧ req.properties = [] →
      chooseVersion req = 3 ∧ (jobFields req).head? = some "3") ∧
    (req.who ≠ "" ∧ req.comment ≠ "" ∧ req.properties = [] →
      chooseVersion req = 4 ∧ (jobFields req).head? = some "4") ∧
    (req.properties ≠ [] →
      chooseVersion req = 5 ∧ (jobFields req).head? = some "5") := by
  refine ⟨fun ⟨hw, hc, hp⟩ => ?_, fun ⟨hw, hc, hp⟩ => ?_,
    fun ⟨hw, hc, hp⟩ => ?_, fun hp => ?_⟩
  · simp [chooseVersion, jobFields, hw, hc, hp, decimalString_two]
  · simp [chooseVersion, jobFields, hw, hc, hp, decimalString_three]
  · simp [chooseVersion, jobFields, hw, hc, hp, decimalString_four]
  · simp [chooseVersion, jobFields, hp, decimalString_five]

/-- Witness for C1 at the four request shapes of the unit tests. -/
theorem claim1_version_selection_witness :
    (chooseVersion testRequestV2 = 2 ∧ (jobFields testRequestV2).head? = some "2") ∧
    (chooseVersion { testRequestV2 with who := "someuser" } = 3 ∧
      (jobFields { testRequestV2 with who := "someuser" }).head? = some "3") ∧
    (chooseVersion { testRequestV2 with who := "someuser", comment := "c" } = 4 ∧
      (jobFields { testRequestV2 with who := "someuser", comment := "c" }).head? = some "4") ∧
    (chooseVersion { testRequestV2 with properties := [("foo", "bar")] } = 5 ∧
      (jobFields { testRequestV2 with properties := [("foo", "bar")] }).head? = some "5") :=
  ⟨(claim1_version_selection testRequestV2).1 ⟨rfl, rfl, rfl⟩,
   (claim1_version_selection _).2.1 ⟨by decide, rfl, rfl⟩,
   (claim1_version_selection _).2.2.1 ⟨by decide, by decide, rfl⟩,
   (claim1_version_selection _).2.2.2 (by decide)⟩

/-- C2 as stated is false: the version-2 message carries the version tag plus
seven fixed fields plus the builder names, i.e. `8 + N` length-prefixed
fields, not `7 + N`.  At the request of `test_createJobfile_v2_one_builder`
(`N = 1`) the message has `9` fields. -/
theorem claim2_counterexample :
    testRequestV2.who = "" ∧ testRequestV2.comment = "" ∧
    testRequestV2.properties = [] ∧ testRequestV2.builderNames.length = 1 ∧
    chooseVersion testRequestV2 = 2 ∧
    createJobfile testRequestV2 = encodeFields (jobFields testRequestV2) ∧
    (jobFields testRequestV2).length = 9 ∧
    ¬ (jobFields testRequestV2).length = 7 + testRequestV2.builderNames.length := by
  decide

/-- C2 (amended): for every valid request with empty `who`, `comment` and
`properties` and `N ≥ 1` builder names, encoding selects version `"2"` and the
wire message consists of exactly `8 + N` length-prefixed fields in the order:
version tag, buildSetId, branch, baseRevision, patchLevel as its decimal
string, diff, repository, project, then the `N` builder names in
`builderNames` order. -/
theorem claim2_v2_message_layout (req : BuildTrialRequest)
    (hw : req.who = "") (hc : req.comment = "") (hp : req.properties = [])
    (hn : 1 ≤ req.builderNames.length) :
    chooseVersion req = 2 ∧
    createJobfile req = encodeFields (jobFields req) ∧
    jobFields req =
      ["2", req.bsid, req.branch, req.baserev, decimalString req.patchlevel,
       req.diff, req.repository, req.project] ++ req.builderNames ∧
    (jobFields req).length = 8 + req.builderNames.length := by
  have hfields : jobFields req =
      ["2", req.bsid, req.branch, req.baserev, decimalString req.patchlevel,
       req.diff, req.repository, req.project] ++ req.builderNames := by
    simp [jobFields, chooseVersion, hw, hc, hp, decimalString_two]
  refine ⟨by simp [chooseVersion, hw, hc, hp],
    createJobfile_eq_encodeFields req, hfields, ?_⟩
  rw [hfields]
  simp only [List.length_append, List.length_cons, List.length_nil]

/-- Witness for C2 (amended) at the request of the first unit test. -/
theorem claim2_v2_message_layout_witness :
    1 ≤ testRequestV2.builderNames.length ∧
    (chooseVersion testRequestV2 = 2 ∧
     createJobfile testRequestV2 = encodeFields (jobFields testRequestV2) ∧
     jobFields testRequestV2 =
       ["2", testRequestV2.bsid, testRequestV2.branch, testRequestV2.baserev,
        decimalString testRequestV2.patchlevel, testRequestV2.diff,
        testRequestV2.repository, testRequestV2.project] ++
       testRequestV2.builderNames ∧
     (jobFields testRequestV2).length = 8 + testRequestV2.builderNames.length) :=
  ⟨by decide, claim2_v2_message_layout testRequestV2 rfl rfl rfl (by decide)⟩

/-- C3: every field of every version is encoded as its byte length in decimal,
a `:` separator, the raw bytes and a terminating `,`; the message is the
concatenation of these netstrings with no additional delimiter; and the
encoding is self-delimiting — parsing a netstring followed by any suffix
recovers the field exactly, whatever separator characters it contains. -/
theorem claim3_netstring_framing :
    (∀ req : BuildTrialRequest, createJobfile req = encodeFields (jobFields req)) ∧
    (∀ s : String, (makeNetstring s).data =
      (decimalString s.length).data ++ ':' :: (s.data ++ [','])) ∧
    (∀ (s : String) (r : List Char),
      parseNetstring ((makeNetstring s).data ++ r) = some (s.data, r)) :=
  ⟨createJobfile_eq_encodeFields,
   fun s => by simp [makeNetstring, String.data_append],
   parseNetstring_makeNetstring⟩

/-! ## OptionsWithOptionsFile (`scripts/runner.py`, lines 83-111)

`optParameters` entries are `[long-name, short-name, default, description]`
lists; the default (index 2) may be `None`, modelled as an `Option String`.
`buildbotOptions` maps options-file names to option names.  The parent
constructor `twisted.python.usage.Options.__init__` is an external
collaborator: it assigns each option its explicit command-line value when one
was supplied and the (class-attribute) default otherwise. -/

/-- One `optParameters` entry: `[long, short, default, description]`. -/
structure OptParam where
  longName : String
  shortName : String
  default : Option String
  descr : String
deriving DecidableEq

/-- The inner loop of `OptionsWithOptionsFile.__init__` (lines 103-108) for a
single `[optfile_name, option_name]` pair: every entry whose long name is
`option_name` gets its default replaced by the options-file value when
`optfile_name` is bound there. -/
def applyOptfilePair (optfile : List (String × String)) (pair : String × String)
    (op : List OptParam) : List OptParam :=
  op.map fun p =>
    match optfile.lookup pair.1 with
    | some v => if p.longName = pair.2 then { p with default := some v } else p
    | none => p

/-- The full default-patching loop (lines 101-108), run only when the class
declares a `buildbotOptions` mapping. -/
def patchOptParameters (buildbotOptions : List (String × String))
    (optfile : List (String × String)) (op : List OptParam) : List OptParam :=
  buildbotOptions.foldl (fun acc pair => applyOptfilePair optfile pair acc) op

/-- The external `usage.Options` parsing contract: the parsed value of an
option is its explicit command-line value if one was supplied, else the
default recorded in the (class-attribute) `optParameters`. -/
def parseOptions (op : List OptParam) (cmdline : List (String × String))
    (name : String) : Option String :=
  match cmdline.lookup name with
  | some v => some v
  | none =>
    match op.find? (fun p => p.longName = name) with
    | some p => p.default
    | none => none

/-- The mutable class attributes of an `OptionsWithOptionsFile` subclass. -/
structure OptionsClass where
  optParameters : List OptParam
  buildbotOptions : List (String × String)
deriving DecidableEq

/-- `OptionsWithOptionsFile.__init__` (lines 89-111) as a state
transformation on the class: save `optParameters`, replace it by a deep copy
with options-file values patched in (deep copy of immutable data is the
identity here), run the parent constructor against the patched attribute, and
restore the saved attribute.  Returns the class state after construction and
the `optParameters` the parent constructor saw. -/
def constructOptions (cls : OptionsClass) (optfile : List (String × String)) :
    OptionsClass × List OptParam :=
  let old := cls.optParameters
  let op :=
    if cls.buildbotOptions = [] then cls.optParameters
    else patchOptParameters cls.buildbotOptions optfile cls.optParameters
  let clsDuring : OptionsClass := { cls with optParameters := op }
  let seenByParent := clsDuring.optParameters
  ({ clsDuring with optParameters := old }, seenByParent)

/-- Effective option values produced by one construction: the parent
constructor parses the command line against the temporarily patched
`optParameters`. -/
def effectiveValue (cls : OptionsClass) (optfile : List (String × String))
    (cmdline : List (String × String)) (name : String) : Option String :=
  parseOptions (constructOptions cls optfile).2 cmdline name

/-- A one-entry key/value store holding a value exactly when one is present. -/
def bindingOf (key : String) : Option String → List (String × String)
  | some v => [(key, v)]
  | none => []

/-- C4: for an option with compiled-in default `D`, optionally resolved
options-file value `R` and optionally supplied explicit command-line value
`E`, the effective value after construction is `E` if present, else `R` if
present, else `D` — covering all presence combinations of `R` and `E`. -/
theorem claim4_three_tier_precedence (D R E : Option String)
    (fn name sh ds : String) :
    effectiveValue ⟨[⟨name, sh, D, ds⟩], [(fn, name)]⟩ (bindingOf fn R)
      (bindingOf name E) name =
      match E with
      | some e => some e
      | none =>
        match R with
        | some r => some r
        | none => D := by
  cases R <;> cases E <;>
    simp [effectiveValue, constructOptions, parseOptions, patchOptParameters,
      applyOptfilePair, bindingOf, List.lookup]

/-- C10: constructing an `OptionsWithOptionsFile` leaves the class attribute
`optParameters` unchanged afterwards — the patched deep copy only replaces it
temporarily — so a later construction sees the original defaults. -/
theorem claim10_optParameters_restored (cls : OptionsClass)
    (optfile1 optfile2 : List (String × String)) :
    (constructOptions cls optfile1).1 = cls ∧
    constructOptions (constructOptions cls optfile1).1 optfile2 =
      constructOptions cls optfile2 :=
  ⟨rfl, rfl⟩

/-! ## loadOptionsFile (`scripts/runner.py`, lines 114-171)

Paths are lists of components from the filesystem root, so `dirname` is
`List.dropLast` and the root is `[]`.  The filesystem and the
ownership/parse outcomes are injected as a capability `fs`, following the
spec's design note on testing the discovery walk against a simulated tree. -/

/-- What the OS reports about one candidate directory: whether it is a
directory, whether the invoking user owns it, and — when a file named
`options` exists inside — the outcome of evaluating it (`Except.error` for a
raised parse error, `Except.ok` for the resulting definition namespace). -/
structure DirInfo where
  isDir : Bool
  ownedByUser : Bool
  optionsFile : Option (Except String (List (String × String)))

/-- The ways `loadOptionsFile` can raise. -/
inductive LoadError where
  /-- The upward walk exceeded its 20-step budget (the `ValueError` of
  line 145). -/
  | tooMany : LoadError
  /-- Evaluating the options file at the given path re-raised the original
  error, after printing a message identifying the path (lines 163-165). -/
  | readError : List String → String → LoadError
deriving DecidableEq

/-- The upward walk of lines 135-147: starting from `here`, append
`here/.buildbot` for each level, stop at the root, and decrement the
`toomany` budget once per non-root level, raising once it hits zero.  The
recursion is structural in the budget, which the decrement bounds. -/
def buildSearchPath : Nat → List String → Except LoadError (List (List String))
  | toomany, here =>
    let entry := here ++ [".buildbot"]
    if here.dropLast = here then .ok [entry]
    else
      match toomany with
      | 0 => .error .tooMany
      | 1 => .error .tooMany
      | t + 2 => (buildSearchPath (t + 1) here.dropLast).map (entry :: ·)

/-- The candidate loop of lines 149-166: skip non-directories, skip
directories the user does not own when the platform checks ownership
(`ownerChecks` is `platformType != 'win32'`), skip directories without an
`options` file; at the first candidate with an `options` file, evaluate it —
re-raising any error with the file's path — and stop with its namespace. -/
def searchLoop (fs : List String → DirInfo) (ownerChecks : Bool) :
    List (List String) → Except LoadError (List (String × String))
  | [] => .ok []
  | d :: rest =>
    if (fs d).isDir then
      if ownerChecks ∧ (fs d).ownedByUser = false then
        searchLoop fs ownerChecks rest
      else
        match (fs d).optionsFile with
        | some (.ok dict) => .ok dict
        | some (.error e) => .error (.readError (d ++ ["options"]) e)
        | none => searchLoop fs ownerChecks rest
    else searchLoop fs ownerChecks rest

/-- Lines 168-170: drop implementation-reserved double-underscore names from
the resulting namespace. -/
def stripDunder (d : List (String × String)) : List (String × String) :=
  d.filter fun kv => ¬ kv.1.startsWith "__"

/-- `loadOptionsFile`: build the search path from the working directory,
append the per-user fallback directory last, run the candidate loop, and
strip reserved names from whatever namespace resulted. -/
def loadOptionsFile (fs : List String → DirInfo) (ownerChecks : Bool)
    (cwd : List String) (home : List String) :
    Except LoadError (List (String × String)) :=
  match buildSearchPath 20 cwd with
  | .error e => .error e
  | .ok sp => (searchLoop fs ownerChecks (sp ++ [home])).map stripDunder

/-- A candidate the loop passes over: not a directory, or not owned while
ownership is checked, or owning no `options` file. -/
def skipsCandidate (fs : List String → DirInfo) (ownerChecks : Bool)
    (d : List String) : Bool :=
  !(fs d).isDir || (ownerChecks && !(fs d).ownedByUser) ||
    ((fs d).optionsFile).isNone

theorem searchLoop_skip (fs : List String → DirInfo) (ownerChecks : Bool)
    (d : List String) (rest : List (List String))
    (h : skipsCandidate fs ownerChecks d = true) :
    searchLoop fs ownerChecks (d :: rest) = searchLoop fs ownerChecks rest := by
  simp only [skipsCandidate, Bool.or_eq_true, Bool.and_eq_true,
    Bool.not_eq_true', Option.isNone_iff_eq_none] at h
  rcases h with (h1 | h2) | h3
  · simp [searchLoop, h1]
  · simp [searchLoop, h2.1, h2.2]
  · simp [searchLoop, h3]

theorem searchLoop_skipAll (fs : List String → DirInfo) (ownerChecks : Bool)
    (pre : List (List String)) (rest : List (List String))
    (h : ∀ p ∈ pre, skipsCandidate fs ownerChecks p = true) :
    searchLoop fs ownerChecks (pre ++ rest) = searchLoop fs ownerChecks rest := by
  induction pre with
  | nil => rfl
  | cons d tl ih =>
    rw [List.cons_append,
      searchLoop_skip fs ownerChecks d _ (h d (List.mem_cons_self d tl)),
      ih fun p hp => h p (List.mem_cons_of_mem d hp)]

theorem buildSearchPath_tooMany (t : Nat) :
    ∀ here : List String, 1 ≤ t → t ≤ here.length →
      buildSearchPath t here = .error .tooMany := by
  induction t with
  | zero => intro here h1 h2; omega
  | succ s ih =>
    intro here h1 h2
    have hpos : 0 < here.length := by omega
    have hdl : ¬ here.dropLast = here := by
      intro heq
      have hl := List.length_dropLast here
      rw [heq] at hl
      omega
    cases s with
    | zero => simp [buildSearchPath, hdl]
    | succ s' =>
      have hrec := ih here.dropLast (by omega)
        (by rw [List.length_dropLast]; omega)
      simp [buildSearchPath, hdl, hrec, Except.map]

theorem searchLoop_found (fs : List String → DirInfo) (ownerChecks : Bool)
    (d : List String) (post : List (List String))
    (hdir : (fs d).isDir = true)
    (hown : ownerChecks = true → (fs d).ownedByUser = true)
    (r : Except String (List (String × String)))
    (hopt : (fs d).optionsFile = some r) :
    searchLoop fs ownerChecks (d :: post) =
      match r with
      | .ok dict => .ok dict
      | .error e => .error (.readError (d ++ ["options"]) e) := by
  by_cases hchk : ownerChecks = true
  · cases r <;> simp [searchLoop, hdir, hopt, hchk, hown hchk]
  · cases r <;> simp [searchLoop, hdir, hopt, hchk]

/-- C5: configuration discovery walks the candidate directories in search
order; a candidate that is not a directory is skipped, one not owned by the
invoking user is skipped when ownership is checked, and the first remaining
candidate whose directory holds an `options` file that evaluates successfully
ends the search — its namespace alone (reserved names stripped) is the
result, whatever candidates follow. -/
theorem claim5_first_match_wins (fs : List String → DirInfo)
    (ownerChecks : Bool) (cwd home : List String)
    (sp pre post : List (List String)) (d : List String)
    (dict : List (String × String))
    (hsp : buildSearchPath 20 cwd = .ok sp)
    (hsplit : sp ++ [home] = pre ++ d :: post)
    (hpre : ∀ p ∈ pre, skipsCandidate fs ownerChecks p = true)
    (hdir : (fs d).isDir = true)
    (hown : ownerChecks = true → (fs d).ownedByUser = true)
    (hopt : (fs d).optionsFile = some (.ok dict)) :
    loadOptionsFile fs ownerChecks cwd home = .ok (stripDunder dict) := by
  have hloop : searchLoop fs ownerChecks (sp ++ [home]) = .ok dict := by
    rw [hsplit, searchLoop_skipAll fs ownerChecks pre _ hpre,
      searchLoop_found fs ownerChecks d post hdir hown _ hopt]
  simp [loadOptionsFile, hsp, hloop, Except.map]

/-- Simulated filesystem for the discovery witnesses: the nearest candidate
is a directory owned by someone else, the root-level candidate is owned and
holds an options namespace (with one reserved name), nothing else exists. -/
def fsWitness : List String → DirInfo := fun p =>
  if p = ["u1", ".buildbot"] then ⟨true, false, some (.ok [("x", "1")])⟩
  else if p = [".buildbot"] then
    ⟨true, true, some (.ok [("who", "me"), ("__b", "z")])⟩
  else ⟨false, true, none⟩

/-- Witness for C5: with ownership checks on, the unowned nearer candidate is
skipped and the owned root-level candidate wins; the home fallback after it
is never consulted. -/
theorem claim5_first_match_wins_witness :
    loadOptionsFile fsWitness true ["u1"] ["h", ".buildbot"] =
      .ok (stripDunder [("who", "me"), ("__b", "z")]) :=
  claim5_first_match_wins fsWitness true ["u1"] ["h", ".buildbot"]
    [["u1", ".buildbot"], [".buildbot"]] [["u1", ".buildbot"]]
    [["h", ".buildbot"]] [".buildbot"] [("who", "me"), ("__b", "z")]
    rfl rfl (by decide) rfl (fun _ => rfl) rfl

/-- C9: when every candidate is skipped — not a directory, unowned while
checks apply, or without an `options` file — discovery succeeds with the
empty namespace instead of raising. -/
theorem claim9_no_match_empty (fs : List String → DirInfo)
    (ownerChecks : Bool) (cwd home : List String) (sp : List (List String))
    (hsp : buildSearchPath 20 cwd = .ok sp)
    (hall : ∀ p ∈ sp ++ [home], skipsCandidate fs ownerChecks p = true) :
    loadOptionsFile fs ownerChecks cwd home = .ok [] := by
  have h2 := searchLoop_skipAll fs ownerChecks (sp ++ [home]) [] hall
  rw [List.append_nil] at h2
  simp [loadOptionsFile, hsp, h2, searchLoop, stripDunder, Except.map]

/-- Witness for C9 on a filesystem with no candidate directories at all. -/
theorem claim9_no_match_empty_witness :
    loadOptionsFile (fun _ => ⟨false, true, none⟩) true ["u1"] ["h"] = .ok [] :=
  claim9_no_match_empty (fun _ => ⟨false, true, none⟩) true ["u1"] ["h"]
    [["u1", ".buildbot"], [".buildbot"]] rfl (by decide)

/-- C8: discovery errors are fatal and never skipped — a working directory 20
or more levels deep makes the upward walk raise its depth error, and an
`options` file whose evaluation raises propagates that error to the caller
together with the offending file's path, instead of the directory being
skipped. -/
theorem claim8_discovery_errors_fatal :
    (∀ cwd : List String, 20 ≤ cwd.length →
      buildSearchPath 20 cwd = .error .tooMany ∧
      ∀ (fs : List String → DirInfo) (ownerChecks : Bool) (home : List String),
        loadOptionsFile fs ownerChecks cwd home = .error .tooMany) ∧
    (∀ (fs : List String → DirInfo) (ownerChecks : Bool)
      (cwd home : List String) (sp pre post : List (List String))
      (d : List String) (e : String),
      buildSearchPath 20 cwd = .ok sp →
      sp ++ [home] = pre ++ d :: post →
      (∀ p ∈ pre, skipsCandidate fs ownerChecks p = true) →
      (fs d).isDir = true →
      (ownerChecks = true → (fs d).ownedByUser = true) →
      (fs d).optionsFile = some (.error e) →
      loadOptionsFile fs ownerChecks cwd home =
        .error (.readError (d ++ ["options"]) e)) := by
  constructor
  · intro cwd hlen
    have herr := buildSearchPath_tooMany 20 cwd (by omega) hlen
    refine ⟨herr, fun fs ownerChecks home => ?_⟩
    simp [loadOptionsFile, herr]
  · intro fs ownerChecks cwd home sp pre post d e hsp hsplit hpre hdir hown hopt
    have hloop : searchLoop fs ownerChecks (sp ++ [home]) =
        .error (.readError (d ++ ["options"]) e) := by
      rw [hsplit, searchLoop_skipAll fs ownerChecks pre _ hpre,
        searchLoop_found fs ownerChecks d post hdir hown _ hopt]
    simp [loadOptionsFile, hsp, hloop, Except.map]

/-- Simulated filesystem whose only candidate holds an options file that
fails to evaluate. -/
def fsBadOptions : List String → DirInfo := fun p =>
  if p = ["u1", ".buildbot"] then ⟨true, true, some (.error "SyntaxError")⟩
  else ⟨false, true, none⟩

/-- Witness for C8: a 20-deep working directory aborts the walk, and a failing
options file in the nearest candidate re-raises with that file's path. -/
theorem claim8_discovery_errors_fatal_witness :
    (buildSearchPath 20 (List.replicate 20 "a") = .error .tooMany ∧
     loadOptionsFile fsBadOptions true (List.replicate 20 "a") ["h"] =
       .error .tooMany) ∧
    loadOptionsFile fsBadOptions true ["u1"] ["h"] =
      .error (.readError (["u1", ".buildbot"] ++ ["options"]) "SyntaxError") :=
  ⟨⟨(claim8_discovery_errors_fatal.1 (List.replicate 20 "a") (by decide)).1,
    (claim8_discovery_errors_fatal.1 (List.replicate 20 "a") (by decide)).2
      fsBadOptions true ["h"]⟩,
   claim8_discovery_errors_fatal.2 fsBadOptions true ["u1"] ["h"]
     [["u1", ".buildbot"], [".buildbot"]] [] [[".buildbot"], ["h"]]
     ["u1", ".buildbot"] "SyntaxError"
     rfl rfl (by decide) rfl (fun _ => rfl) rfl⟩

/-! ## doTryServer (`scripts/runner.py`, lines 1109-1134)

Spool delivery is modelled as the sequence of filesystem operations the
function performs.  The current time (`time.time()`, truncated to an integer
by `"%d"`) and the MD5 hex digest (`hashlib`) are external inputs, injected
as parameters. -/

/-- A filesystem operation performed by spool delivery. -/
inductive FsOp where
  /-- `open(path, "w")` followed by `f.write(contents)` of the whole payload. -/
  | writeFile : List String → String → FsOp
  /-- `os.rename(src, dst)`. -/
  | rename : List String → List String → FsOp
deriving DecidableEq

/-- `doTryServer`: hash the job read from standard input, compose the
filename from the decimal timestamp and the hex digest, write the whole
payload to `jobdir/tmp/<fn>`, then rename it to `jobdir/new/<fn>`. -/
def doTryServer (jobdir : List String) (now : Nat) (md5hex : String → String)
    (job : String) : List FsOp :=
  let timestring := decimalString now
  let jobhash := md5hex job
  let fn := timestring ++ "-" ++ jobhash
  let tmpfile := jobdir ++ ["tmp", fn]
  let newfile := jobdir ++ ["new", fn]
  [.writeFile tmpfile job, .rename tmpfile newfile]

/-- C6: spool delivery writes the entire payload once, to the staging
subdirectory `tmp`, under the name `<decimal timestamp>-<hex digest>`; the
final step is the single rename of that file into the visible subdirectory
`new` under the same name; no other operation occurs, so in particular no
write ever touches the visible path before the rename. -/
theorem claim6_spool_delivery (jobdir : List String) (now : Nat)
    (md5hex : String → String) (job : String) :
    doTryServer jobdir now md5hex job =
      [.writeFile (jobdir ++ ["tmp", decimalString now ++ "-" ++ md5hex job]) job,
       .rename (jobdir ++ ["tmp", decimalString now ++ "-" ++ md5hex job])
         (jobdir ++ ["new", decimalString now ++ "-" ++ md5hex job])] ∧
    (∀ p c, FsOp.writeFile p c ∈ doTryServer jobdir now md5hex job →
      p = jobdir ++ ["tmp", decimalString now ++ "-" ++ md5hex job] ∧ c = job) ∧
    (doTryServer jobdir now md5hex job).getLast? =
      some (.rename (jobdir ++ ["tmp", decimalString now ++ "-" ++ md5hex job])
        (jobdir ++ ["new", decimalString now ++ "-" ++ md5hex job])) := by
  refine ⟨rfl, ?_, rfl⟩
  intro p c hmem
  simp [doTryServer] at hmem
  exact ⟨hmem.1, hmem.2⟩

/-! ## stop with wait (`scripts/runner.py`, lines 620-659)

After the termination signal is sent, the function sleeps 0.1 s and polls
`os.kill(pid, 0)` once per second while `timer < 10`.  Which polls find the
process alive is injected as `alive : Nat → Bool` (attempt index ↦ liveness);
sleeps are recorded in tenths of a second so the 0.1 s pause stays exact. -/

/-- An observable step of the waiting loop. -/
inductive StopEvent where
  /-- `time.sleep(n/10)` seconds. -/
  | sleepTenths : Nat → StopEvent
  /-- `os.kill(pid, 0)`, the zero-effect liveness probe, at the given value
  of `timer`. -/
  | probe : Nat → StopEvent
deriving DecidableEq

/-- The outcome of the waiting loop: the process was seen dead at a probe
(the function returns at once), or ten probes saw it alive and the loop fell
through to the soft "never saw process go away" report — no error raised. -/
inductive StopOutcome where
  | dead : Nat → StopOutcome
  | sawTimeout : StopOutcome
deriving DecidableEq

/-- The `while timer < 10` loop, structural in the remaining attempts
(`fuel = 10 - timer`): probe; if the probe raises `OSError` the process is
dead and the loop returns; otherwise increment `timer`, sleep one second and
continue. -/
def pollLoop (alive : Nat → Bool) (timer : Nat) :
    Nat → List StopEvent × StopOutcome
  | 0 => ([], .sawTimeout)
  | fuel + 1 =>
    if alive timer then
      let (evs, r) := pollLoop alive (timer + 1) fuel
      (.probe timer :: .sleepTenths 10 :: evs, r)
    else ([.probe timer], .dead timer)

/-- The wait phase of `stop(config, wait=True)` after the signal was sent:
`time.sleep(0.1)`, then the polling loop with `timer = 0` and a ten-attempt
budget. -/
def stopWait (alive : Nat → Bool) : List StopEvent × StopOutcome :=
  let (evs, r) := pollLoop alive 0 10
  (.sleepTenths 1 :: evs, r)

/-- The event trace of a run all of whose probes found the process alive:
one probe per second. -/
def aliveTrace : Nat → Nat → List StopEvent
  | 0, _ => []
  | fuel + 1, timer => .probe timer :: .sleepTenths 10 :: aliveTrace fuel (timer + 1)

theorem pollLoop_allAlive (alive : Nat → Bool) :
    ∀ fuel timer, (∀ i, i < fuel → alive (timer + i) = true) →
      pollLoop alive timer fuel = (aliveTrace fuel timer, .sawTimeout) := by
  intro fuel
  induction fuel with
  | zero => intro timer _; rfl
  | succ f ih =>
    intro timer h
    have h0 : alive timer = true := by simpa using h 0 (by omega)
    have hrec := ih (timer + 1) fun i hi => by
      have := h (i + 1) (by omega)
      simpa [Nat.add_assoc, Nat.add_comm 1 i] using this
    simp [pollLoop, h0, hrec, aliveTrace]

theorem pollLoop_dies (alive : Nat → Bool) :
    ∀ (k : Nat) (fuel timer : Nat), k < fuel →
      alive (timer + k) = false →
      (∀ i, i < k → alive (timer + i) = true) →
      pollLoop alive timer fuel =
        (aliveTrace k timer ++ [.probe (timer + k)], .dead (timer + k)) := by
  intro k
  induction k with
  | zero =>
    intro fuel timer hk hdead _
    cases fuel with
    | zero => omega
    | succ f => simp_all [pollLoop, aliveTrace]
  | succ k' ih =>
    intro fuel timer hk hdead hlive
    cases fuel with
    | zero => omega
    | succ f =>
      have h0 : alive timer = true := by simpa using hlive 0 (by omega)
      have hrec := ih f (timer + 1) (by omega)
        (by simpa [Nat.add_assoc, Nat.add_comm 1 k'] using hdead)
        (fun i hi => by
          have := hlive (i + 1) (by omega)
          simpa [Nat.add_assoc, Nat.add_comm 1 i] using this)
      have harith : timer + 1 + k' = timer + (k' + 1) := by omega
      simp only [pollLoop, h0, if_pos, hrec, aliveTrace, harith,
        List.cons_append]

/-- C7: after the signal, the controller sleeps a fixed 0.1 s and then probes
with the zero-effect signal once per second, at most ten times.  If probe `k`
(`k < 10`) finds the process gone the call returns success (`dead`)
immediately after exactly `k + 1` probes; if all ten probes find it alive the
call returns the soft-timeout outcome after exactly ten probes, raising no
error either way. -/
theorem claim7_stop_with_wait (alive : Nat → Bool) :
    ((∀ i, i < 10 → alive i = true) →
      stopWait alive = (.sleepTenths 1 :: aliveTrace 10 0, .sawTimeout) ∧
      ((stopWait alive).1.filter fun e =>
        match e with | .probe _ => true | _ => false).length = 10) ∧
    (∀ k, k < 10 → alive k = false → (∀ i, i < k → alive i = true) →
      stopWait alive =
        (.sleepTenths 1 :: (aliveTrace k 0 ++ [.probe k]), .dead k) ∧
      ((stopWait alive).1.filter fun e =>
        match e with | .probe _ => true | _ => false).length = k + 1) := by
  have hfilter : ∀ fuel timer,
      ((aliveTrace fuel timer).filter fun e =>
        match e with | .probe _ => true | _ => false).length = fuel := by
    intro fuel
    induction fuel with
    | zero => intro timer; rfl
    | succ f ih => intro timer; simp [aliveTrace, ih (timer + 1)]
  constructor
  · intro h
    have hp := pollLoop_allAlive alive 10 0 fun i hi => by simpa using h i hi
    constructor
    · simp [stopWait, hp]
    · simp only [stopWait, hp]
      simp [hfilter 10 0]
  · intro k hk hdead hlive
    have hp := pollLoop_dies alive k 10 0 hk (by simpa using hdead)
      fun i hi => by simpa using hlive i hi
    constructor
    · simp [stopWait, hp]
    · simp only [stopWait, hp]
      simp [hfilter k 0]

/-- Witness for C7: a process that never dies yields the soft timeout after
ten probes; one that dies at the third probe yields success after three. -/
theorem claim7_stop_with_wait_witness :
    (stopWait (fun _ => true) =
      (.sleepTenths 1 :: aliveTrace 10 0, .sawTimeout) ∧
     ((stopWait fun _ => true).1.filter fun e =>
       match e with | .probe _ => true | _ => false).length = 10) ∧
    (stopWait (fun i => decide (i < 2)) =
      (.sleepTenths 1 :: (aliveTrace 2 0 ++ [.probe 2]), .dead 2) ∧
     ((stopWait fun i => decide (i < 2)).1.filter fun e =>
       match e with | .probe _ => true | _ => false).length = 2 + 1) :=
  ⟨(claim7_stop_with_wait (fun _ => true)).1 (fun _ _ => rfl),
   (claim7_stop_with_wait (fun i => decide (i < 2))).2 2 (by decide)
     (by decide) (by decide)⟩

end Buildbot
